import Mathlib
/-!
Shallow embedding of the Go HTTP server in src/app/main.go.

Strings are modelled as lists of characters (Go strings are byte
sequences; all inputs of interest are ASCII).  Each definition mirrors
the Go source function named in its doc comment.
-/

/-! ## Definitions: shallow embedding of the Go source -/

/-- Go strings, modelled as lists of characters. -/
abbrev GoStr := List Char

/-- Coerce a Lean string literal to the Go string model. -/
def str (s : String) : GoStr := s.data

/-- Whitespace predicate used by strings.TrimSpace (ASCII part of unicode.IsSpace). -/
def isGoSpace (c : Char) : Bool :=
  c = ' ' || c = '\t' || c = '\n' || c = Char.ofNat 11 || c = Char.ofNat 12 || c = '\r'

/-- strings.TrimSpace: drop leading and trailing whitespace. -/
def goTrimSpace (s : GoStr) : GoStr :=
  ((s.dropWhile isGoSpace).reverse.dropWhile isGoSpace).reverse

/-- strings.HasPrefix s pre. -/
def goHasPref : GoStr → GoStr → Bool
  | _, [] => true
  | [], _ :: _ => false
  | c :: s, d :: p => c = d && goHasPref s p

/-- strings.TrimPrefix s pre. -/
def goTrimPref (s pre : GoStr) : GoStr :=
  if goHasPref s pre then s.drop pre.length else s

/-- strings.Contains s sub (substring test). -/
def goContains : GoStr → GoStr → Bool
  | [], sub => goHasPref [] sub
  | c :: s, sub => goHasPref (c :: s) sub || goContains s sub

/-- strings.Split s sep for a one-character separator. -/
def splitOnChar (c : Char) : GoStr → List GoStr
  | [] => [[]]
  | x :: xs =>
    if x = c then [] :: splitOnChar c xs
    else
      match splitOnChar c xs with
      | [] => [[x]]
      | h :: t => (x :: h) :: t

/-- strings.SplitN s sep 2: split at the first occurrence of sep.
Returns none when sep does not occur. -/
def splitOnce (sep : GoStr) : GoStr → Option (GoStr × GoStr)
  | [] => if sep = [] then some ([], []) else none
  | x :: xs =>
    if goHasPref (x :: xs) sep then some ([], (x :: xs).drop sep.length)
    else (splitOnce sep xs).map (fun p => (x :: p.1, p.2))

/-- strings.ToLower (ASCII). -/
def goToLower (s : GoStr) : GoStr := s.map Char.toLower

/-- One decimal digit. -/
def digitVal (c : Char) : Option Nat :=
  if '0' ≤ c ∧ c ≤ '9' then some (c.toNat - '0'.toNat) else none

/-- All-decimal-digit string to Nat (none when empty or non-digit). -/
def digitsToNat : GoStr → Option Nat
  | [] => none
  | [c] => digitVal c
  | c :: cs =>
    match digitVal c, digitsToNat cs with
    | some d, some n => some (d * 10 ^ cs.length + n)
    | _, _ => none

/-- strconv.Atoi: optional sign followed by digits. -/
def goAtoi : GoStr → Option Int
  | '-' :: rest => (digitsToNat rest).map (fun n => -(n : Int))
  | '+' :: rest => (digitsToNat rest).map (fun n => (n : Int))
  | s => (digitsToNat s).map (fun n => (n : Int))

/-- The Go code ignores the Atoi error, so a failed parse yields 0. -/
def atoiOr0 (s : GoStr) : Int := (goAtoi s).getD 0

/-- Header mapping: association list with Go-map semantics. -/
abbrev Headers := List (GoStr × GoStr)

/-- Go map assignment m[k] = v: replace the binding or append a new one. -/
def mapSet (m : Headers) (k v : GoStr) : Headers :=
  match m with
  | [] => [(k, v)]
  | (k', v') :: rest => if k' = k then (k, v) :: rest else (k', v') :: mapSet rest k v

/-- Go map lookup with presence flag: v, ok := m[k]. -/
def mapGet? (m : Headers) (k : GoStr) : Option GoStr :=
  match m with
  | [] => none
  | (k', v) :: rest => if k' = k then some v else mapGet? rest k

/-- Go map read of a missing key yields the zero value "". -/
def mapGetD (m : Headers) (k : GoStr) : GoStr := (mapGet? m k).getD []

/-- Core of filepath.Clean: process path elements against a stack
(held in reverse, most recent element first). -/
def cleanStack (rooted : Bool) : List GoStr → List GoStr → List GoStr
  | stack, [] => stack
  | stack, e :: es =>
    if e = [] ∨ e = ['.'] then cleanStack rooted stack es
    else if e = ['.', '.'] then
      match stack with
      | top :: rest =>
        if top = ['.', '.'] then cleanStack rooted (e :: stack) es
        else cleanStack rooted rest es
      | [] =>
        if rooted then cleanStack rooted [] es else cleanStack rooted [e] es
    else cleanStack rooted (e :: stack) es

/-- Join path elements with slashes. -/
def joinSlash : List GoStr → GoStr
  | [] => []
  | [e] => e
  | e :: es => e ++ '/' :: joinSlash es

/-- filepath.Clean for Unix paths. -/
def goClean (p : GoStr) : GoStr :=
  if p = [] then ['.']
  else
    let rooted := goHasPref p (str "/")
    let parts := (cleanStack rooted [] (splitOnChar '/' p)).reverse
    let joined := joinSlash parts
    if rooted then '/' :: joined
    else if joined = [] then ['.']
    else joined

/-- filepath.Join of two elements: concatenate the non-empty ones with a
slash and Clean the result. -/
def goJoin2 (a b : GoStr) : GoStr :=
  if a = [] then
    if b = [] then [] else goClean b
  else goClean (a ++ '/' :: b)

/-- filepath.Abs given the working directory: Clean an absolute path,
otherwise Join it onto the working directory. -/
def goAbs (cwd p : GoStr) : GoStr :=
  if goHasPref p (str "/") then goClean p else goJoin2 cwd p

/-- Hexadecimal digit value, as in net/url. -/
def hexVal (c : Char) : Option Nat :=
  if '0' ≤ c ∧ c ≤ '9' then some (c.toNat - '0'.toNat)
  else if 'a' ≤ c ∧ c ≤ 'f' then some (c.toNat - 'a'.toNat + 10)
  else if 'A' ≤ c ∧ c ≤ 'F' then some (c.toNat - 'A'.toNat + 10)
  else none

/-- url.QueryUnescape: decode percent escapes, map + to space, error on a
malformed escape. -/
def queryUnescape : GoStr → Option GoStr
  | [] => some []
  | '%' :: a :: b :: rest =>
    match hexVal a, hexVal b with
    | some x, some y => (queryUnescape rest).map (fun t => Char.ofNat (16 * x + y) :: t)
    | _, _ => none
  | '%' :: _ => none
  | '+' :: rest => (queryUnescape rest).map (fun t => ' ' :: t)
  | c :: rest => (queryUnescape rest).map (fun t => c :: t)

/-- Session store: session id to last-access time (time.Time modelled as Nat). -/
abbrev SM := List (GoStr × Nat)

/-- Session lookup, as SessionManager.GetSession. -/
def smGet (sm : SM) (id : GoStr) : Option Nat :=
  match sm with
  | [] => none
  | (k, t) :: rest => if k = id then some t else smGet rest id

/-- Session map assignment, used by CreateSession and UpdateSession. -/
def smSet (sm : SM) (id : GoStr) (t : Nat) : SM :=
  match sm with
  | [] => [(id, t)]
  | (k, t') :: rest => if k = id then (id, t) :: rest else (k, t') :: smSet rest id t

/-- File system model: path to content, plus a disk-fault model so that
the 500 branches of the Go code are reachable. -/
structure FS where
  files : List (GoStr × GoStr)
  failWrite : GoStr → Bool
  failRemove : GoStr → Bool
  failList : Bool

/-- ioutil.ReadFile: any error (in particular absence) is reported to the
caller, which answers 404. -/
def fsRead (fs : FS) (p : GoStr) : Option GoStr := mapGet? fs.files p

/-- ioutil.WriteFile: create or truncate; none models a disk error. -/
def fsWrite (fs : FS) (p content : GoStr) : Option FS :=
  if fs.failWrite p then none
  else some { fs with files := mapSet fs.files p content }

/-- os.Remove outcome. -/
inductive RemoveResult where
  | ok (fs : FS)
  | notExist
  | otherErr

/-- os.Remove: not-found error when the path is absent, disk fault, or
removal of the entry. -/
def fsRemove (fs : FS) (p : GoStr) : RemoveResult :=
  match mapGet? fs.files p with
  | none => .notExist
  | some _ =>
    if fs.failRemove p then .otherErr
    else .ok { fs with files := fs.files.filter (fun kv => ¬ kv.1 = p) }

/-- Environment: configuration and the effects the code obtains from the
outside world (working directory, gzip library, clock formatting, random
session-id generator, current instant). -/
structure Env where
  cwd : GoStr
  dir : GoStr
  gzipC : GoStr → GoStr
  fmtTime : Nat → GoStr
  sinceStr : Nat → GoStr
  freshId : Nat → GoStr
  nowT : Nat

/-- A response as produced by sendResponse: status line data, the extra
header map, whether Content-Encoding: gzip was added, the final
Content-Length and the bytes written as the body. -/
structure SentResponse where
  status : Nat
  statusText : GoStr
  contentType : GoStr
  close : Bool
  extraHeaders : Headers
  gzipped : Bool
  contentLength : Nat
  outBody : GoStr
deriving DecidableEq

/-- sendResponse: gzip the body when negotiated and non-empty, add the
Content-Encoding header, and compute Content-Length from the final body. -/
def sendResponse (gz : GoStr → GoStr) (status : Nat) (text ct body : GoStr)
    (hdrs : Headers) (supGz close : Bool) : SentResponse :=
  let doGz := supGz && decide (0 < body.length)
  let b := if doGz then gz body else body
  { status := status, statusText := text, contentType := ct, close := close,
    extraHeaders := hdrs, gzipped := doGz, contentLength := b.length, outBody := b }

/-- supportsGzip: split Accept-Encoding on commas and compare each
trimmed entry with the exact token gzip. -/
def supportsGzipF (acceptEncoding : GoStr) : Bool :=
  if acceptEncoding = [] then false
  else (splitOnChar ',' acceptEncoding).any (fun e => goTrimSpace e = str "gzip")

/-- getSessionCookie: first cookie part whose trimmed text starts with
session=, with that marker removed. -/
def getSessionCookie (cookies : GoStr) : GoStr :=
  if cookies = [] then []
  else
    let rec walk : List GoStr → GoStr
      | [] => []
      | part :: rest =>
        let p := goTrimSpace part
        if goHasPref p (str "session=") then goTrimPref p (str "session=")
        else walk rest
    walk (splitOnChar ';' cookies)

/-- The session block of handleConnection (lines 189-202): look up the
cookie's session id; absent or unknown ids get a fresh session and a
Set-Cookie header, known ids are refreshed. Returns the new store, the
number of fresh ids consumed, and the response-header map so far. -/
def sessionStep (env : Env) (sm : SM) (n : Nat) (cookie : GoStr) : SM × Nat × Headers :=
  let sid := getSessionCookie cookie
  if sid = [] then
    let sid' := env.freshId n
    (smSet sm sid' env.nowT, n + 1,
      mapSet [] (str "Set-Cookie") (str "session=" ++ sid' ++ str "; Path=/"))
  else
    match smGet sm sid with
    | some _ => (smSet sm sid env.nowT, n, [])
    | none =>
      let sid' := env.freshId n
      (smSet sm sid' env.nowT, n + 1,
        mapSet [] (str "Set-Cookie") (str "session=" ++ sid' ++ str "; Path=/"))

/-- The files directory, filepath.Join(config.Directory, "files"). -/
def filesDirOf (env : Env) : GoStr := goJoin2 env.dir (str "files")

/-- handleFileGet: missing file is 404, otherwise 200 with a content type
inferred from the extension. -/
def handleFileGet (env : Env) (fs : FS) (filePath : GoStr)
    (rh : Headers) (gz close : Bool) : SentResponse × FS :=
  match fsRead fs filePath with
  | none => (sendResponse env.gzipC 404 (str "Not Found") (str "text/plain")
      (str "File not found") rh gz close, fs)
  | some fileData =>
    let ct :=
      if goHasPref (filePath.reverse) ((str ".txt").reverse) then str "text/plain"
      else if goHasPref (filePath.reverse) ((str ".html").reverse) then str "text/html"
      else if goHasPref (filePath.reverse) ((str ".json").reverse) then str "application/json"
      else str "application/octet-stream"
    (sendResponse env.gzipC 200 (str "OK") ct fileData rh gz close, fs)

/-- handleFileCreate: write the body verbatim; disk fault is 500,
success is 201. -/
def handleFileCreate (env : Env) (fs : FS) (filePath body : GoStr)
    (rh : Headers) (gz close : Bool) : SentResponse × FS :=
  match fsWrite fs filePath body with
  | none => (sendResponse env.gzipC 500 (str "Internal Server Error") (str "text/plain")
      (str "Error writing file") rh gz close, fs)
  | some fs' => (sendResponse env.gzipC 201 (str "Created") (str "text/plain")
      (str "File created") rh gz close, fs')

/-- handleFileDelete: absence is 404, other failures 500, success 200. -/
def handleFileDelete (env : Env) (fs : FS) (filePath : GoStr)
    (rh : Headers) (gz close : Bool) : SentResponse × FS :=
  match fsRemove fs filePath with
  | .notExist => (sendResponse env.gzipC 404 (str "Not Found") (str "text/plain")
      (str "File not found") rh gz close, fs)
  | .otherErr => (sendResponse env.gzipC 500 (str "Internal Server Error") (str "text/plain")
      (str "Error deleting file") rh gz close, fs)
  | .ok fs' => (sendResponse env.gzipC 200 (str "OK") (str "text/plain")
      (str "File deleted") rh gz close, fs')

/-- One listing entry, as written by handleDirectoryListing. -/
def listingItem (name : GoStr) : GoStr :=
  str "<li><a href=\"/files/" ++ name ++ str "\">" ++ name ++ str "</a></li>"

/-- handleDirectoryListing: render the names of the immediate entries of
the files directory; read failure is 500. -/
def handleDirectoryListing (env : Env) (fs : FS)
    (rh : Headers) (gz close : Bool) : SentResponse × FS :=
  if fs.failList then
    (sendResponse env.gzipC 500 (str "Internal Server Error") (str "text/plain")
      (str "Error reading directory") rh gz close, fs)
  else
    let pre := filesDirOf env ++ str "/"
    let names := (fs.files.filter (fun kv =>
        goHasPref kv.1 pre && ¬ goContains (goTrimPref kv.1 pre) (str "/"))).map
      (fun kv => goTrimPref kv.1 pre)
    let body := str "<html><head><title>Directory Listing</title></head><body>"
      ++ str "<h1>Directory Listing</h1><ul>"
      ++ (names.map listingItem).flatten
      ++ str "</ul></body></html>"
    (sendResponse env.gzipC 200 (str "OK") (str "text/html") body rh gz close, fs)

/-- handleFiles: listing for the bare /files path, otherwise percent-decode
the name (400 on bad encoding), run the containment check (403 on
violation) and dispatch on the method. -/
def handleFiles (env : Env) (fs : FS) (method path body : GoStr)
    (rh : Headers) (gz close : Bool) : SentResponse × FS :=
  if path = str "/files" ∨ path = str "/files/" then
    handleDirectoryListing env fs rh gz close
  else
    match queryUnescape (goTrimPref path (str "/files/")) with
    | none => (sendResponse env.gzipC 400 (str "Bad Request") (str "text/plain")
        (str "Invalid URL encoding") rh gz close, fs)
    | some filename =>
      let filesDir := filesDirOf env
      let filePath := goJoin2 filesDir filename
      let absFilesDir := goAbs env.cwd filesDir
      let absFilePath := goAbs env.cwd filePath
      if ¬ goHasPref absFilePath absFilesDir || goContains filename (str "..") then
        (sendResponse env.gzipC 403 (str "Forbidden") (str "text/plain")
          (str "Path traversal not allowed") rh gz close, fs)
      else if method = str "GET" then handleFileGet env fs filePath rh gz close
      else if method = str "POST" then handleFileCreate env fs filePath body rh gz close
      else if method = str "DELETE" then handleFileDelete env fs filePath rh gz close
      else (sendResponse env.gzipC 405 (str "Method Not Allowed") (str "text/plain")
        (str "Method not allowed") rh gz close, fs)

/-- The JSON body of /api/status (json.Marshal writes map keys sorted). -/
def apiStatusBody (env : Env) : GoStr :=
  str "\x7b\"status\":\"ok\",\"time\":\"" ++ env.fmtTime env.nowT ++ str "\"\x7d"

/-- The JSON body of /api/time. -/
def apiTimeBody (env : Env) : GoStr :=
  str "\x7b\"time\":\"" ++ env.fmtTime env.nowT ++ str "\"\x7d"

/-- The JSON body of /api/session for a given store and cookie header. -/
def apiSessionBody (env : Env) (sm : SM) (cookie : GoStr) : GoStr :=
  let sid := getSessionCookie cookie
  let ts := (smGet sm sid).getD 0
  str "\x7b\"age\":\"" ++ env.sinceStr ts
    ++ str "\",\"created_at\":\"" ++ env.fmtTime ts
    ++ str "\",\"session_id\":\"" ++ sid ++ str "\"\x7d"

/-- handleRequest: the dispatch switch over the request path, in source
order.  Returns the response and the possibly updated file system. -/
def handleRequest (env : Env) (sm : SM) (fs : FS) (method path : GoStr)
    (hdrs : Headers) (body : GoStr) (rh : Headers) (gz close : Bool) :
    SentResponse × FS :=
  if path = str "/" then
    (sendResponse env.gzipC 200 (str "OK") (str "text/plain")
      (str "Welcome to the Go Web Server") rh gz close, fs)
  else if goHasPref path (str "/echo/") then
    (sendResponse env.gzipC 200 (str "OK") (str "text/plain")
      (goTrimPref path (str "/echo/")) rh gz close, fs)
  else if path = str "/user-agent" then
    if ¬ method = str "GET" then
      (sendResponse env.gzipC 405 (str "Method Not Allowed") (str "text/plain")
        (str "Method not allowed") rh gz close, fs)
    else
      (sendResponse env.gzipC 200 (str "OK") (str "text/plain")
        (mapGetD hdrs (str "User-Agent")) rh gz close, fs)
  else if path = str "/api/status" then
    (sendResponse env.gzipC 200 (str "OK") (str "application/json")
      (apiStatusBody env) rh gz close, fs)
  else if path = str "/api/time" then
    (sendResponse env.gzipC 200 (str "OK") (str "application/json")
      (apiTimeBody env) rh gz close, fs)
  else if path = str "/api/echo" then
    if ¬ method = str "POST" ∧ ¬ method = str "PUT" then
      (sendResponse env.gzipC 405 (str "Method Not Allowed") (str "text/plain")
        (str "Method not allowed") rh gz close, fs)
    else
      (sendResponse env.gzipC 200 (str "OK") (str "application/json") body rh gz close, fs)
  else if path = str "/api/session" then
    (sendResponse env.gzipC 200 (str "OK") (str "application/json")
      (apiSessionBody env sm (mapGetD hdrs (str "Cookie"))) rh gz close, fs)
  else if goHasPref path (str "/files") then
    handleFiles env fs method path body rh gz close
  else
    (sendResponse env.gzipC 404 (str "Not Found") (str "text/plain")
      (str "Not Found") rh gz close, fs)

/-- bufio.Reader.ReadString with delimiter newline: the returned line
includes the newline; a stream without one is a read error, on which the
handler loop breaks. -/
def readLine : GoStr → Option (GoStr × GoStr)
  | [] => none
  | x :: xs =>
    if x = '\n' then some ([x], xs)
    else (readLine xs).map (fun p => (x :: p.1, p.2))

/-- parseHeaders (fueled; each line consumes at least one character, so
fuel larger than the stream length is always enough): read lines until a
blank one, keeping those that split on the first colon-space. -/
def parseHeadersAux : Nat → Headers → GoStr → Option (Headers × GoStr)
  | 0, _, _ => none
  | fuel + 1, acc, s =>
    match readLine s with
    | none => none
    | some (line, rest) =>
      let l := goTrimSpace line
      if l = [] then some (acc, rest)
      else
        match splitOnce (str ": ") l with
        | some (k, v) => parseHeadersAux fuel (mapSet acc k v) rest
        | none => parseHeadersAux fuel acc rest

/-- parseHeaders on a stream. -/
def parseHeaders (s : GoStr) : Option (Headers × GoStr) :=
  parseHeadersAux (s.length + 1) [] s

/-- The body-read step: cl, _ := strconv.Atoi; body := make([]byte, cl);
io.ReadFull(reader, body) with both errors ignored.  A negative length
makes the slice allocation panic (modelled as the error case); otherwise
the body is the available bytes zero-padded to the requested length. -/
def readBody (cl : Int) (s : GoStr) : Except GoStr (GoStr × GoStr) :=
  if cl < 0 then .error (str "makeslice: len out of range")
  else
    let m := cl.toNat
    .ok (s.take m ++ List.replicate (m - s.length) (Char.ofNat 0), s.drop m)

/-- Body handling in handleConnection: only a present Content-Length
header triggers a read. -/
def readBodyStep (hdrs : Headers) (s : GoStr) : Except GoStr (GoStr × GoStr) :=
  match mapGet? hdrs (str "Content-Length") with
  | none => .ok ([], s)
  | some clStr => readBody (atoiOr0 clStr) s

/-- Connection-close test: strings.ToLower(headers["Connection"]) == "close". -/
def wantsClose (hdrs : Headers) : Bool :=
  goToLower (mapGetD hdrs (str "Connection")) = str "close"

/-- Lines 184-213 of handleConnection after the body is read: close flag,
gzip negotiation, session handling, security headers, dispatch. -/
def exchange (env : Env) (sm : SM) (fs : FS) (n : Nat) (method path : GoStr)
    (hdrs : Headers) (body : GoStr) : SentResponse × SM × FS × Nat × Bool :=
  let closeConn := wantsClose hdrs
  let gz := supportsGzipF (mapGetD hdrs (str "Accept-Encoding"))
  let st := sessionStep env sm n (mapGetD hdrs (str "Cookie"))
  let rh := mapSet (mapSet (mapSet st.2.2
    (str "X-Content-Type-Options") (str "nosniff"))
    (str "X-Frame-Options") (str "DENY"))
    (str "X-XSS-Protection") (str "1; mode=block")
  let hr := handleRequest env st.1 fs method path hdrs body rh gz closeConn
  (hr.1, st.1, hr.2, st.2.1, closeConn)

/-- The 400 sent for a malformed request line (nil header map, close). -/
def malformed400 (env : Env) : SentResponse :=
  sendResponse env.gzipC 400 (str "Bad Request") (str "text/plain")
    (str "Bad Request") [] false true

/-- handleConnection's loop (fueled; every iteration consumes at least one
character, so fuel larger than the stream length is always enough).
Returns the responses written in order, and whether the handler panicked
(a panic crashes the whole process, there being no recover). -/
def connLoopAux (env : Env) : Nat → GoStr → SM → FS → Nat →
    List SentResponse × Bool
  | 0, _, _, _, _ => ([], false)
  | fuel + 1, s, sm, fs, n =>
    match readLine s with
    | none => ([], false)
    | some (line, rest) =>
      let rl := goTrimSpace line
      if rl = [] then connLoopAux env fuel rest sm fs n
      else
        let parts := splitOnChar ' ' rl
        if parts.length < 3 then ([malformed400 env], false)
        else
          let method := parts.headD []
          let path := (parts.drop 1).headD []
          match parseHeaders rest with
          | none => ([], false)
          | some (hdrs, rest2) =>
            match readBodyStep hdrs rest2 with
            | .error _ => ([], true)
            | .ok (body, rest3) =>
              let E := exchange env sm fs n method path hdrs body
              if E.2.2.2.2 then ([E.1], false)
              else
                let T := connLoopAux env fuel rest3 E.2.1 E.2.2.1 E.2.2.2.1
                (E.1 :: T.1, T.2)

/-- handleConnection on a whole incoming stream. -/
def connLoop (env : Env) (s : GoStr) (sm : SM) (fs : FS) (n : Nat) :
    List SentResponse × Bool :=
  connLoopAux env (s.length + 1) s sm fs n

/-- A concrete environment used to instantiate general theorems. -/
def cEnv : Env :=
  { cwd := str "/w", dir := str ".", gzipC := id,
    fmtTime := (fun _ => str "T"), sinceStr := (fun _ => str "A"),
    freshId := (fun _ => str "sid0"), nowT := 7 }

/-- A concrete file-system state used to instantiate general theorems. -/
def cFS : FS :=
  { files := [(str "files/a.txt", str "hello")], failWrite := (fun _ => false),
    failRemove := (fun _ => false), failList := false }

/-- The three security headers added to every dispatched response. -/
def hasSecurityHeaders (r : SentResponse) : Prop :=
  mapGet? r.extraHeaders (str "X-Content-Type-Options") = some (str "nosniff")
  ∧ mapGet? r.extraHeaders (str "X-Frame-Options") = some (str "DENY")
  ∧ mapGet? r.extraHeaders (str "X-XSS-Protection") = some (str "1; mode=block")

/-- One header line on the wire. -/
def encodeHeaderLine (kv : GoStr × GoStr) : GoStr :=
  kv.1 ++ str ": " ++ kv.2 ++ str "\r\n"

/-- A serialized HTTP/1.1 request. -/
def encodeRequest (method path : GoStr) (hs : List (GoStr × GoStr)) (body : GoStr) : GoStr :=
  method ++ ' ' :: path ++ str " HTTP/1.1\r\n"
    ++ ((hs.map encodeHeaderLine).flatten ++ (str "\r\n" ++ body))

/-- The header map parseHeaders builds from the listed header lines. -/
def parsedMap (hs : List (GoStr × GoStr)) : Headers :=
  hs.foldl (fun m kv => mapSet m kv.1 kv.2) []

/-- A request-line token: non-empty and free of whitespace. -/
def wfTok (s : GoStr) : Prop := s ≠ [] ∧ ∀ c ∈ s, isGoSpace c = false

/-- A header line the parser reproduces verbatim: the key starts with a
non-whitespace character, contains no newline and no colon-space; the
value is non-empty, ends with a non-whitespace character and contains no
newline. -/
def wfHeaderKV (kv : GoStr × GoStr) : Prop :=
  (∃ c k', kv.1 = c :: k' ∧ isGoSpace c = false)
  ∧ '\n' ∉ kv.1
  ∧ goContains kv.1 (str ": ") = false
  ∧ (∃ v' d, kv.2 = v' ++ [d] ∧ isGoSpace d = false)
  ∧ '\n' ∉ kv.2

/-- Body consistent with the framing the code applies: no Content-Length
header means an empty body, otherwise the (error-ignored) parse must
equal the body length. -/
def wfBody (hs : List (GoStr × GoStr)) (body : GoStr) : Prop :=
  match mapGet? (parsedMap hs) (str "Content-Length") with
  | none => body = []
  | some s => atoiOr0 s = (body.length : Int)

/-! ## Sanity checks on concrete inputs -/

example : goClean (str "a/b/../c") = str "a/c" := by decide
example : goClean (str "/a/./b//c/..") = str "/a/b" := by decide
example : goJoin2 (str ".") (str "files") = str "files" := by decide
example : goJoin2 (str "files") (str "../etc/passwd") = str "etc/passwd" := by decide
example : goJoin2 (str "files") (str "../../etc/passwd") = str "../etc/passwd" := by decide
example : goAbs (str "/w") (str "files/a.txt") = str "/w/files/a.txt" := by decide
example : goAbs (str "/w") (str "../etc/passwd") = str "/etc/passwd" := by decide
example : queryUnescape (str "%2e%2e/x") = some (str "../x") := by decide
example : queryUnescape (str "a%2") = none := by decide
example : queryUnescape (str "a+b") = some (str "a b") := by decide
example : goTrimSpace (str "  ab\r\n") = str "ab" := by decide
example : getSessionCookie (str "a=b; session=xyz") = str "xyz" := by decide
example : getSessionCookie (str "a=b") = str "" := by decide
example : supportsGzipF (str "deflate, gzip") = true := by decide
example : supportsGzipF (str "gzipx") = false := by decide
example : supportsGzipF (str "") = false := by decide
example : splitOnChar ' ' (str "GET / HTTP/1.1") = [str "GET", str "/", str "HTTP/1.1"] := by decide
example : splitOnce (str ": ") (str "Host: a: b") = some (str "Host", str "a: b") := by decide
example : atoiOr0 (str "-1") = -1 := by decide
example : atoiOr0 (str "abc") = 0 := by decide
example : atoiOr0 (str "17") = 17 := by decide
example : goContains (str "a..b") (str "..") = true := by decide

/-! ## Supporting lemmas -/

lemma goHasPref_append (pre s : GoStr) : goHasPref (pre ++ s) pre = true := by
  induction pre with
  | nil => cases s <;> simp [goHasPref]
  | cons c p ih => simp [goHasPref, ih]

lemma goTrimPref_append (pre s : GoStr) : goTrimPref (pre ++ s) pre = s := by
  simp [goTrimPref, goHasPref_append, List.drop_left]

lemma goContains_of_pref {s sub : GoStr} (h : goHasPref s sub = true) :
    goContains s sub = true := by
  cases s with
  | nil => simpa [goContains] using h
  | cons c t => simp [goContains, h]

lemma goContains_cons {s sub : GoStr} (c : Char) (h : goContains s sub = true) :
    goContains (c :: s) sub = true := by
  simp [goContains, h]

lemma splitOnChar_ne_nil (c : Char) (s : GoStr) : splitOnChar c s ≠ [] := by
  cases s with
  | nil => simp [splitOnChar]
  | cons x xs =>
    simp only [splitOnChar]
    by_cases hx : x = c
    · simp [hx]
    · simp only [if_neg hx]
      cases splitOnChar c xs <;> simp

lemma splitOnChar_head_pref (c : Char) (s : GoStr) :
    ∀ h t, splitOnChar c s = h :: t → goHasPref s h = true := by
  induction s with
  | nil =>
    intro h t he
    simp [splitOnChar] at he
    simp [he.1, goHasPref]
  | cons x xs ih =>
    intro h t he
    simp only [splitOnChar] at he
    by_cases hx : x = c
    · simp only [if_pos hx] at he
      cases he
      simp [goHasPref]
    · simp only [if_neg hx] at he
      rcases hh : splitOnChar c xs with _ | ⟨h', t'⟩
      · exact absurd hh (splitOnChar_ne_nil c xs)
      · rw [hh] at he
        injection he with he1 he2
        subst he1
        simp [goHasPref, ih h' t' hh]

lemma mem_splitOnChar_contains {c : Char} {s ch : GoStr}
    (hm : ch ∈ splitOnChar c s) (hne : ch ≠ []) : goContains s ch = true := by
  induction s with
  | nil =>
    simp [splitOnChar] at hm
    exact absurd hm hne
  | cons x xs ih =>
    simp only [splitOnChar] at hm
    by_cases hx : x = c
    · simp only [if_pos hx] at hm
      rcases List.mem_cons.mp hm with hm' | hm'
      · exact absurd hm' hne
      · exact goContains_cons x (ih hm')
    · simp only [if_neg hx] at hm
      rcases hh : splitOnChar c xs with _ | ⟨h', t'⟩
      · exact absurd hh (splitOnChar_ne_nil c xs)
      · rw [hh] at hm
        rcases List.mem_cons.mp hm with hm' | hm'
        · subst hm'
          apply goContains_of_pref
          simp [goHasPref, splitOnChar_head_pref c xs h' t' hh]
        · refine goContains_cons x (ih ?_)
          rw [hh]
          exact List.mem_cons_of_mem h' hm'

lemma mapGet?_set_self (m : Headers) (k v : GoStr) :
    mapGet? (mapSet m k v) k = some v := by
  induction m with
  | nil => simp [mapSet, mapGet?]
  | cons kv rest ih =>
    obtain ⟨k', v'⟩ := kv
    simp only [mapSet]
    by_cases h : k' = k
    · simp [h, mapGet?]
    · simp [h, mapGet?, ih]

lemma mapGet?_set_ne (m : Headers) (k v key : GoStr) (h : ¬ k = key) :
    mapGet? (mapSet m k v) key = mapGet? m key := by
  induction m with
  | nil => simp [mapSet, mapGet?, h]
  | cons kv rest ih =>
    obtain ⟨k', v'⟩ := kv
    simp only [mapSet]
    by_cases h' : k' = k
    · subst h'
      simp [mapGet?, h, if_neg h]
    · simp only [if_neg h', mapGet?]
      by_cases h'' : k' = key
      · simp [h'']
      · simp [h'', ih]

lemma smGet_set_self (sm : SM) (id : GoStr) (t : Nat) :
    smGet (smSet sm id t) id = some t := by
  induction sm with
  | nil => simp [smSet, smGet]
  | cons kv rest ih =>
    obtain ⟨k', t'⟩ := kv
    simp only [smSet]
    by_cases h : k' = id
    · simp [h, smGet]
    · simp [h, smGet, ih]

lemma mapGet?_filter_self (l : List (GoStr × GoStr)) (k : GoStr) :
    mapGet? (l.filter (fun kv => ¬ kv.1 = k)) k = none := by
  induction l with
  | nil => simp [mapGet?]
  | cons kv rest ih =>
    obtain ⟨k', v'⟩ := kv
    by_cases h : k' = k
    · simpa [List.filter, h] using ih
    · simpa [List.filter, h, mapGet?] using ih

lemma filesPath_ne (name : GoStr) (hname : name ≠ []) :
    ¬ (str "/files/" ++ name = str "/files") ∧ ¬ (str "/files/" ++ name = str "/files/") := by
  have hlen : 1 ≤ name.length := List.length_pos.mpr hname
  constructor
  · intro h
    have hl := congrArg List.length h
    rw [List.length_append, show (str "/files/").length = 7 from rfl,
      show (str "/files").length = 6 from rfl] at hl
    omega
  · intro h
    have hl := congrArg List.length h
    rw [List.length_append, show (str "/files/").length = 7 from rfl] at hl
    omega

lemma handleFiles_dispatch (env : Env) (fs : FS) (method name fname body : GoStr)
    (rh : Headers) (gz close : Bool)
    (hname : name ≠ [])
    (hdec : queryUnescape name = some fname)
    (hpref : goHasPref (goAbs env.cwd (goJoin2 (filesDirOf env) fname))
      (goAbs env.cwd (filesDirOf env)) = true)
    (hdots : goContains fname (str "..") = false) :
    handleFiles env fs method (str "/files/" ++ name) body rh gz close =
      (if method = str "GET" then
        handleFileGet env fs (goJoin2 (filesDirOf env) fname) rh gz close
      else if method = str "POST" then
        handleFileCreate env fs (goJoin2 (filesDirOf env) fname) body rh gz close
      else if method = str "DELETE" then
        handleFileDelete env fs (goJoin2 (filesDirOf env) fname) rh gz close
      else (sendResponse env.gzipC 405 (str "Method Not Allowed") (str "text/plain")
        (str "Method not allowed") rh gz close, fs)) := by
  obtain ⟨h1, h2⟩ := filesPath_ne name hname
  simp only [handleFiles, goTrimPref_append, hdec]
  rw [if_neg (by simp [h1, h2])]
  simp only [hpref, hdots, Bool.not_true, Bool.false_or, Bool.or_false, if_neg]
  simp

lemma mapGet?_filter_none (l : List (GoStr × GoStr)) (k : GoStr)
    (p : GoStr × GoStr → Bool) (hp : ∀ kv, p kv = true → ¬ kv.1 = k) :
    mapGet? (l.filter p) k = none := by
  induction l with
  | nil => simp [mapGet?]
  | cons kv rest ih =>
    by_cases h : p kv = true
    · have := hp kv h
      simp [List.filter, h, mapGet?, this, ih]
    · simp only [List.filter, Bool.not_eq_true] at h
      simp [List.filter, h, ih]

lemma supportsGzipF_of_mem {ae : GoStr}
    (h : str "gzip" ∈ (splitOnChar ',' ae).map goTrimSpace) : supportsGzipF ae = true := by
  rcases List.mem_map.mp h with ⟨e, he, htrim⟩
  by_cases hae : ae = []
  · subst hae
    simp [splitOnChar] at he
    rw [he] at htrim
    exact absurd htrim (by decide)
  · unfold supportsGzipF
    rw [if_neg hae, List.any_eq_true]
    exact ⟨e, he, by simp [htrim]⟩

lemma mapGetD_set_ne (m : Headers) (k v key : GoStr) (h : ¬ k = key) :
    mapGetD (mapSet m k v) key = mapGetD m key := by
  simp [mapGetD, mapGet?_set_ne m k v key h]

lemma handleFiles_extraHeaders (env : Env) (fs : FS) (method path body : GoStr)
    (rh : Headers) (gz close : Bool) :
    (handleFiles env fs method path body rh gz close).1.extraHeaders = rh := by
  unfold handleFiles handleDirectoryListing handleFileGet handleFileCreate handleFileDelete
  repeat' split
  all_goals (try simp [sendResponse])
  all_goals (repeat' split)
  all_goals simp [sendResponse]

lemma handleRequest_extraHeaders (env : Env) (sm : SM) (fs : FS)
    (method path : GoStr) (hdrs : Headers) (body : GoStr)
    (rh : Headers) (gz close : Bool) :
    (handleRequest env sm fs method path hdrs body rh gz close).1.extraHeaders = rh := by
  unfold handleRequest
  repeat' split
  all_goals first
    | simp [sendResponse]
    | apply handleFiles_extraHeaders

lemma exchange_secure (env : Env) (sm : SM) (fs : FS) (n : Nat)
    (method path : GoStr) (hdrs : Headers) (body : GoStr) :
    hasSecurityHeaders (exchange env sm fs n method path hdrs body).1 := by
  unfold exchange hasSecurityHeaders
  rw [handleRequest_extraHeaders]
  refine ⟨?_, ?_, ?_⟩
  · rw [mapGet?_set_ne _ _ _ _ (by decide), mapGet?_set_ne _ _ _ _ (by decide),
      mapGet?_set_self]
  · rw [mapGet?_set_ne _ _ _ _ (by decide), mapGet?_set_self]
  · rw [mapGet?_set_self]

lemma connLoopAux_secure (env : Env) (fuel : Nat) :
    ∀ (s : GoStr) (sm : SM) (fs : FS) (n : Nat),
      ∀ r ∈ (connLoopAux env fuel s sm fs n).1,
        hasSecurityHeaders r ∨ r = malformed400 env := by
  induction fuel with
  | zero => intro s sm fs n r hr; simp [connLoopAux] at hr
  | succ fuel ih =>
    intro s sm fs n r hr
    rw [connLoopAux] at hr
    rcases hL : readLine s with _ | ⟨line, rest⟩
    · rw [hL] at hr; simp at hr
    · rw [hL] at hr
      simp only at hr
      by_cases hempty : goTrimSpace line = []
      · rw [if_pos hempty] at hr
        exact ih rest sm fs n r hr
      · rw [if_neg hempty] at hr
        by_cases hshort : (splitOnChar ' ' (goTrimSpace line)).length < 3
        · rw [if_pos hshort] at hr
          simp at hr
          exact Or.inr hr
        · rw [if_neg hshort] at hr
          rcases hP : parseHeaders rest with _ | ⟨hdrs, rest2⟩
          · rw [hP] at hr; simp at hr
          · rw [hP] at hr
            simp only at hr
            rcases hB : readBodyStep hdrs rest2 with e | ⟨body, rest3⟩
            · rw [hB] at hr; simp at hr
            · rw [hB] at hr
              simp only at hr
              by_cases hcl : (exchange env sm fs n
                  ((splitOnChar ' ' (goTrimSpace line)).headD [])
                  (((splitOnChar ' ' (goTrimSpace line)).drop 1).headD [])
                  hdrs body).2.2.2.2 = true
              · rw [if_pos hcl] at hr
                simp at hr
                subst hr
                exact Or.inl (exchange_secure env sm fs n _ _ hdrs body)
              · rw [if_neg hcl] at hr
                simp only [List.mem_cons] at hr
                rcases hr with hr | hr
                · subst hr
                  exact Or.inl (exchange_secure env sm fs n _ _ hdrs body)
                · exact ih rest3 _ _ _ r hr

lemma readLine_append {a : GoStr} (rest : GoStr) (h : '\n' ∉ a) :
    readLine (a ++ '\n' :: rest) = some (a ++ ['\n'], rest) := by
  induction a with
  | nil => simp [readLine]
  | cons c a' ih =>
    have hc : ¬ c = '\n' := fun hc => h (hc ▸ List.mem_cons_self c a')
    have h' : '\n' ∉ a' := fun hm => h (List.mem_cons_of_mem c hm)
    simp [readLine, hc, ih h']

lemma dropWhile_append_ne {p : Char → Bool} {l : GoStr} {d : Char} {ds : GoStr}
    (x : GoStr) (h : l.dropWhile p = d :: ds) :
    (l ++ x).dropWhile p = d :: (ds ++ x) := by
  induction l with
  | nil => simp [List.dropWhile] at h
  | cons c l' ih =>
    by_cases hp : p c = true
    · rw [List.dropWhile_cons_of_pos hp] at h
      rw [List.cons_append, List.dropWhile_cons_of_pos hp]
      exact ih h
    · rw [List.dropWhile_cons_of_neg hp] at h
      injection h with h1 h2
      subst h1
      subst h2
      rw [List.cons_append, List.dropWhile_cons_of_neg hp]

lemma trim_shape (c d : Char) (mid : GoStr) (hc : isGoSpace c = false)
    (hd : isGoSpace d = false) :
    goTrimSpace (c :: mid ++ [d, '\r', '\n']) = c :: mid ++ [d] := by
  unfold goTrimSpace
  rw [List.cons_append, List.dropWhile_cons_of_neg (by simp [hc])]
  rw [show (c :: (mid ++ [d, '\r', '\n'])).reverse
      = '\n' :: '\r' :: d :: (mid.reverse ++ [c]) by simp]
  rw [List.dropWhile_cons_of_pos (by decide), List.dropWhile_cons_of_pos (by decide),
    List.dropWhile_cons_of_neg (by simp [hd])]
  simp

lemma splitOnChar_not_mem {c : Char} {a : GoStr} (h : c ∉ a) : splitOnChar c a = [a] := by
  induction a with
  | nil => rfl
  | cons x xs ih =>
    have hx : ¬ x = c := fun he => h (he ▸ List.mem_cons_self x xs)
    have h' : c ∉ xs := fun hm => h (List.mem_cons_of_mem x hm)
    simp [splitOnChar, hx, ih h']

lemma splitOnChar_append {c : Char} {a : GoStr} (b : GoStr) (h : c ∉ a) :
    splitOnChar c (a ++ c :: b) = a :: splitOnChar c b := by
  induction a with
  | nil => simp [splitOnChar]
  | cons x xs ih =>
    have hx : ¬ x = c := fun he => h (he ▸ List.mem_cons_self x xs)
    have h' : c ∉ xs := fun hm => h (List.mem_cons_of_mem x hm)
    rw [List.cons_append]
    rw [show splitOnChar c (x :: (xs ++ c :: b))
        = match splitOnChar c (xs ++ c :: b) with
          | [] => [[x]]
          | hh :: t => (x :: hh) :: t by simp [splitOnChar, hx]]
    rw [ih h']

lemma splitOnce_boundary {k : GoStr} (v : GoStr) (hk : goContains k (str ": ") = false) :
    splitOnce (str ": ") (k ++ str ": " ++ v) = some (k, v) := by
  induction k with
  | nil =>
    simp [splitOnce, goHasPref, str]
  | cons c k' ih =>
    have hk' : goContains k' (str ": ") = false := by
      have : goContains (c :: k') (str ": ")
          = (goHasPref (c :: k') (str ": ") || goContains k' (str ": ")) := rfl
      rw [this] at hk
      exact (Bool.or_eq_false_iff.mp hk).2
    have hfalse : goHasPref (c :: (k' ++ (str ": " ++ v))) (str ": ") = false := by
      cases k' with
      | nil => by_cases hc : c = ':' <;> simp [goHasPref, str, hc]
      | cons e k'' =>
        by_cases hc : c = ':'
        · by_cases he : e = ' '
          · exfalso
            rw [hc, he] at hk
            simp [goContains, goHasPref, str] at hk
          · simp [goHasPref, str, hc, he]
        · simp [goHasPref, str, hc]
    have hstream : (c :: k') ++ str ": " ++ v = c :: (k' ++ (str ": " ++ v)) := by
      simp
    rw [hstream]
    rw [show splitOnce (str ": ") (c :: (k' ++ (str ": " ++ v)))
        = (splitOnce (str ": ") (k' ++ (str ": " ++ v))).map (fun p => (c :: p.1, p.2)) by
      simp [splitOnce, hfalse]]
    rw [show k' ++ (str ": " ++ v) = k' ++ str ": " ++ v by simp]
    rw [ih hk']
    rfl

lemma parseHeadersAux_encode :
    ∀ (hs : List (GoStr × GoStr)) (fuel : Nat) (acc : Headers) (tail : GoStr),
    (∀ kv ∈ hs, wfHeaderKV kv) →
    ((hs.map encodeHeaderLine).flatten ++ (str "\r\n" ++ tail)).length < fuel →
    parseHeadersAux fuel acc ((hs.map encodeHeaderLine).flatten ++ (str "\r\n" ++ tail))
      = some (hs.foldl (fun m kv => mapSet m kv.1 kv.2) acc, tail) := by
  intro hs
  induction hs with
  | nil =>
    intro fuel acc tail hwf hfuel
    cases fuel with
    | zero => exact absurd hfuel (Nat.not_lt_zero _)
    | succ f =>
      have hstream : (([] : List (GoStr × GoStr)).map encodeHeaderLine).flatten
          ++ (str "\r\n" ++ tail) = '\r' :: '\n' :: tail := by simp [str]
      rw [hstream]
      simp only [parseHeadersAux]
      rw [show readLine ('\r' :: '\n' :: tail) = some (['\r', '\n'], tail) by
        simp [readLine]]
      simp [show goTrimSpace ['\r', '\n'] = [] from by decide]
  | cons kv hs' ih =>
    intro fuel acc tail hwf hfuel
    obtain ⟨k, v⟩ := kv
    obtain ⟨⟨c, k', hk, hc⟩, hkn, hks, ⟨v', d, hv, hd⟩, hvn⟩ :=
      hwf (k, v) (List.mem_cons_self (k, v) hs')
    simp only at hk hv hkn hks hvn
    cases fuel with
    | zero => exact absurd hfuel (Nat.not_lt_zero _)
    | succ f =>
      have hna : '\n' ∉ k ++ str ": " ++ v ++ ['\r'] := by
        intro hm
        simp only [List.mem_append, str] at hm
        rcases hm with ((hm | hm) | hm) | hm
        · exact hkn hm
        · simp at hm
        · exact hvn hm
        · simp at hm
      have hshape : (((k, v) :: hs').map encodeHeaderLine).flatten ++ (str "\r\n" ++ tail)
          = (k ++ str ": " ++ v ++ ['\r'])
            ++ '\n' :: ((hs'.map encodeHeaderLine).flatten ++ (str "\r\n" ++ tail)) := by
        simp only [List.map_cons, List.flatten_cons, encodeHeaderLine,
          show str "\r\n" = ['\r', '\n'] from rfl, List.append_assoc, List.cons_append,
          List.nil_append]
      rw [hshape]
      simp only [parseHeadersAux]
      rw [readLine_append _ hna]
      have hline : (k ++ str ": " ++ v ++ ['\r']) ++ ['\n']
          = c :: (k' ++ str ": " ++ v') ++ [d, '\r', '\n'] := by
        subst hk
        subst hv
        simp
      have htrim : goTrimSpace ((k ++ str ": " ++ v ++ ['\r']) ++ ['\n'])
          = k ++ str ": " ++ v := by
        rw [hline, trim_shape c d _ hc hd]
        subst hk
        subst hv
        simp
      simp only [htrim]
      have hne : ¬ (k ++ str ": " ++ v = []) := by
        subst hk
        simp
      rw [if_neg hne]
      rw [show k ++ str ": " ++ v = k ++ str ": " ++ v from rfl]
      rw [splitOnce_boundary v hks]
      simp only
      have hfuel' : ((hs'.map encodeHeaderLine).flatten ++ (str "\r\n" ++ tail)).length < f := by
        rw [hshape] at hfuel
        simp only [List.length_append, List.length_cons] at hfuel ⊢
        omega
      rw [ih f (mapSet acc k v) tail (fun kv hm => hwf kv (List.mem_cons_of_mem _ hm)) hfuel']
      rfl

lemma noWS_nl {s : GoStr} (h : ∀ c ∈ s, isGoSpace c = false) : '\n' ∉ s :=
  fun hm => absurd (h '\n' hm) (by decide)

lemma noWS_sp {s : GoStr} (h : ∀ c ∈ s, isGoSpace c = false) : ' ' ∉ s :=
  fun hm => absurd (h ' ' hm) (by decide)

lemma connLoopAux_nil (env : Env) (fuel : Nat) (sm : SM) (fs : FS) (n : Nat) :
    connLoopAux env fuel [] sm fs n = ([], false) := by
  cases fuel <;> simp [connLoopAux, readLine]

lemma connLoopAux_front (env : Env) (fuel : Nat) (m p : GoStr)
    (hs : List (GoStr × GoStr)) (rest2 : GoStr) (sm : SM) (fs : FS) (n : Nat)
    (hm : wfTok m) (hp : wfTok p) (hhs : ∀ kv ∈ hs, wfHeaderKV kv) :
    connLoopAux env (fuel + 1)
      (m ++ ' ' :: p ++ str " HTTP/1.1\r\n"
        ++ ((hs.map encodeHeaderLine).flatten ++ (str "\r\n" ++ rest2))) sm fs n =
      (match readBodyStep (parsedMap hs) rest2 with
       | .error _ => ([], true)
       | .ok (body, rest3) =>
         let E := exchange env sm fs n m p (parsedMap hs) body
         if E.2.2.2.2 then ([E.1], false)
         else ((E.1 :: (connLoopAux env fuel rest3 E.2.1 E.2.2.1 E.2.2.2.1).1),
               (connLoopAux env fuel rest3 E.2.1 E.2.2.1 E.2.2.2.1).2)) := by
  obtain ⟨hm0, hmws⟩ := hm
  obtain ⟨hp0, hpws⟩ := hp
  rcases hme : m with _ | ⟨cm, m'⟩
  · exact absurd hme hm0
  have hcm : isGoSpace cm = false := hmws cm (by rw [hme]; exact List.mem_cons_self cm m')
  subst hme
  have hna : '\n' ∉ (cm :: m') ++ ' ' :: (p ++ str " HTTP/1.1\r") := by
    intro hmem
    rcases List.mem_append.mp hmem with hmem | hmem
    · exact noWS_nl hmws hmem
    · rcases List.mem_cons.mp hmem with hmem | hmem
      · simp at hmem
      · rcases List.mem_append.mp hmem with hmem | hmem
        · exact noWS_nl hpws hmem
        · simp [str] at hmem
  have hshape : (cm :: m') ++ ' ' :: p ++ str " HTTP/1.1\r\n"
      ++ ((hs.map encodeHeaderLine).flatten ++ (str "\r\n" ++ rest2))
      = ((cm :: m') ++ ' ' :: (p ++ str " HTTP/1.1\r"))
        ++ '\n' :: ((hs.map encodeHeaderLine).flatten ++ (str "\r\n" ++ rest2)) := by
    simp [show str " HTTP/1.1\r\n" = str " HTTP/1.1\r" ++ ['\n'] from rfl,
      List.append_assoc]
  rw [hshape]
  simp only [connLoopAux]
  rw [readLine_append _ hna]
  simp only
  have hline : ((cm :: m') ++ ' ' :: (p ++ str " HTTP/1.1\r")) ++ ['\n']
      = cm :: (m' ++ ' ' :: p ++ str " HTTP/1.") ++ ['1', '\r', '\n'] := by
    simp [show str " HTTP/1.1\r" = str " HTTP/1." ++ ['1', '\r'] from rfl,
      List.append_assoc]
  have htrim : goTrimSpace (((cm :: m') ++ ' ' :: (p ++ str " HTTP/1.1\r")) ++ ['\n'])
      = (cm :: m') ++ ' ' :: (p ++ str " HTTP/1.1") := by
    rw [hline, trim_shape cm '1' _ hcm (by decide)]
    simp [show str " HTTP/1." ++ ['1'] = str " HTTP/1.1" from rfl, List.append_assoc]
  rw [htrim]
  rw [if_neg (by simp)]
  have hsplit : splitOnChar ' ' ((cm :: m') ++ ' ' :: (p ++ str " HTTP/1.1"))
      = [cm :: m', p, str "HTTP/1.1"] := by
    rw [splitOnChar_append _ (noWS_sp hmws)]
    rw [show p ++ str " HTTP/1.1" = p ++ ' ' :: str "HTTP/1.1" from rfl]
    rw [splitOnChar_append _ (noWS_sp hpws)]
    rw [splitOnChar_not_mem (by decide)]
  rw [hsplit]
  rw [if_neg (by simp)]
  have hph : parseHeaders ((hs.map encodeHeaderLine).flatten ++ (str "\r\n" ++ rest2))
      = some (parsedMap hs, rest2) := by
    unfold parseHeaders
    exact parseHeadersAux_encode hs _ [] rest2 hhs (Nat.lt_succ_self _)
  rw [hph]
  simp only [List.headD, List.drop, parsedMap]

lemma readBodyStep_exact (hs : List (GoStr × GoStr)) (body tail : GoStr)
    (hb : wfBody hs body) :
    readBodyStep (parsedMap hs) (body ++ tail) = .ok (body, tail) := by
  unfold readBodyStep
  unfold wfBody at hb
  cases hCL : mapGet? (parsedMap hs) (str "Content-Length") with
  | none =>
    rw [hCL] at hb
    subst hb
    simp
  | some scl =>
    rw [hCL] at hb
    simp only at hb ⊢
    unfold readBody
    rw [hb]
    rw [if_neg (by simp)]
    rw [show ((body.length : Int)).toNat = body.length from Int.toNat_natCast _]
    simp [List.take_left, List.drop_left, List.length_append]

lemma connLoop_step (env : Env) (fuel : Nat) (m p : GoStr)
    (hs : List (GoStr × GoStr)) (body tail : GoStr) (sm : SM) (fs : FS) (n : Nat)
    (hm : wfTok m) (hp : wfTok p) (hhs : ∀ kv ∈ hs, wfHeaderKV kv) (hb : wfBody hs body) :
    connLoopAux env (fuel + 1) (encodeRequest m p hs body ++ tail) sm fs n =
      (if (exchange env sm fs n m p (parsedMap hs) body).2.2.2.2 then
        ([(exchange env sm fs n m p (parsedMap hs) body).1], false)
      else
        (((exchange env sm fs n m p (parsedMap hs) body).1 ::
            (connLoopAux env fuel tail
              (exchange env sm fs n m p (parsedMap hs) body).2.1
              (exchange env sm fs n m p (parsedMap hs) body).2.2.1
              (exchange env sm fs n m p (parsedMap hs) body).2.2.2.1).1),
          (connLoopAux env fuel tail
            (exchange env sm fs n m p (parsedMap hs) body).2.1
            (exchange env sm fs n m p (parsedMap hs) body).2.2.1
            (exchange env sm fs n m p (parsedMap hs) body).2.2.2.1).2)) := by
  have hshape : encodeRequest m p hs body ++ tail
      = m ++ ' ' :: p ++ str " HTTP/1.1\r\n"
        ++ ((hs.map encodeHeaderLine).flatten ++ (str "\r\n" ++ (body ++ tail))) := by
    simp [encodeRequest, List.append_assoc]
  rw [hshape, connLoopAux_front env fuel m p hs (body ++ tail) sm fs n hm hp hhs]
  rw [readBodyStep_exact hs body tail hb]

lemma connLoopAux_single (env : Env) (fuel : Nat) (m p : GoStr)
    (hs : List (GoStr × GoStr)) (body : GoStr) (sm : SM) (fs : FS) (n : Nat)
    (hm : wfTok m) (hp : wfTok p) (hhs : ∀ kv ∈ hs, wfHeaderKV kv) (hb : wfBody hs body) :
    connLoopAux env (fuel + 1) (encodeRequest m p hs body) sm fs n
      = ([(exchange env sm fs n m p (parsedMap hs) body).1], false) := by
  rw [← List.append_nil (encodeRequest m p hs body),
    connLoop_step env fuel m p hs body [] sm fs n hm hp hhs hb]
  by_cases hcl : (exchange env sm fs n m p (parsedMap hs) body).2.2.2.2 = true
  · rw [if_pos hcl]
  · rw [if_neg hcl, connLoopAux_nil]

lemma exchange_close_eq (env : Env) (sm : SM) (fs : FS) (n : Nat)
    (m p : GoStr) (hdrs : Headers) (body : GoStr) :
    (exchange env sm fs n m p hdrs body).2.2.2.2 = wantsClose hdrs := rfl

lemma dropWhile_append_of_nil {p : Char → Bool} {l : GoStr} (x : GoStr)
    (h : l.dropWhile p = []) : (l ++ x).dropWhile p = x.dropWhile p := by
  induction l with
  | nil => simp
  | cons c l' ih =>
    by_cases hp : p c = true
    · rw [List.dropWhile_cons_of_pos hp] at h
      rw [List.cons_append, List.dropWhile_cons_of_pos hp]
      exact ih h
    · rw [List.dropWhile_cons_of_neg hp] at h
      exact absurd h (by simp)

lemma goTrimSpace_append_nl (l : GoStr) :
    goTrimSpace (l ++ ['\n']) = goTrimSpace l := by
  unfold goTrimSpace
  cases h : l.dropWhile isGoSpace with
  | nil =>
    rw [dropWhile_append_of_nil _ h]
    rw [show List.dropWhile isGoSpace ['\n'] = [] from by decide]
  | cons d ds =>
    rw [dropWhile_append_ne _ h]
    rw [show (d :: (ds ++ ['\n'])).reverse = '\n' :: (d :: ds).reverse by simp]
    rw [List.dropWhile_cons_of_pos (by decide)]

lemma connLoop_malformed (env : Env) (sm : SM) (fs : FS) (n : Nat)
    (line tail : GoStr) (hnl : '\n' ∉ line) (hne : ¬ goTrimSpace line = [])
    (hlt : (splitOnChar ' ' (goTrimSpace line)).length < 3) :
    connLoop env (line ++ '\n' :: tail) sm fs n = ([malformed400 env], false) := by
  unfold connLoop
  simp only [connLoopAux]
  rw [readLine_append _ hnl]
  simp only
  rw [goTrimSpace_append_nl]
  rw [if_neg hne, if_pos hlt]

lemma connLoop_single (env : Env) (sm : SM) (fs : FS) (n : Nat)
    (m p : GoStr) (hs : List (GoStr × GoStr)) (body : GoStr)
    (hm : wfTok m) (hp : wfTok p) (hhs : ∀ kv ∈ hs, wfHeaderKV kv) (hb : wfBody hs body) :
    connLoop env (encodeRequest m p hs body) sm fs n
      = ([(exchange env sm fs n m p (parsedMap hs) body).1], false) := by
  unfold connLoop
  exact connLoopAux_single env _ m p hs body sm fs n hm hp hhs hb

/-! ## Claim theorems -/

/-- C1: for every files-route request naming a file (any method) whose percent-decoded
name, joined to the storage root and resolved to an absolute cleaned
path, does not have the resolved root as a string prefix, or whose
decoded name contains a dot-dot segment, the handler answers 403,
regardless of how the name was percent-encoded. -/
theorem c1_files_traversal_forbidden (env : Env) (fs : FS)
    (method name fname body : GoStr) (rh : Headers) (gz close : Bool)
    (hname : name ≠ [])
    (hdec : queryUnescape name = some fname)
    (hbad : ¬ goHasPref (goAbs env.cwd (goJoin2 (filesDirOf env) fname))
              (goAbs env.cwd (filesDirOf env)) = true
            ∨ (str "..") ∈ splitOnChar '/' fname) :
    (handleFiles env fs method (str "/files/" ++ name) body rh gz close).1.status = 403 := by
  have hlen : 1 ≤ name.length := List.length_pos.mpr hname
  have h1 : ¬ (str "/files/" ++ name = str "/files") := by
    intro h
    have hl := congrArg List.length h
    rw [List.length_append, show (str "/files/").length = 7 from rfl,
      show (str "/files").length = 6 from rfl] at hl
    omega
  have h2 : ¬ (str "/files/" ++ name = str "/files/") := by
    intro h
    have hl := congrArg List.length h
    rw [List.length_append, show (str "/files/").length = 7 from rfl] at hl
    omega
  have hcond : (¬ goHasPref (goAbs env.cwd (goJoin2 (filesDirOf env) fname))
        (goAbs env.cwd (filesDirOf env)) || goContains fname (str "..")) = true := by
    rcases hbad with hb | hb
    · simp [hb]
    · have : goContains fname (str "..") = true :=
        mem_splitOnChar_contains hb (by decide)
      simp [this]
  simp only [handleFiles, goTrimPref_append, hdec]
  rw [if_neg (by simp [h1, h2])]
  simp only [hcond, if_pos]
  simp [sendResponse]

/-- C1 witness: the percent-encoded traversal name resolves to a decoded
name with a dot-dot segment, and the handler answers 403. -/
theorem c1_witness :
    queryUnescape (str "%2e%2e/%2e%2e/etc/passwd") = some (str "../../etc/passwd")
    ∧ (str "..") ∈ splitOnChar '/' (str "../../etc/passwd")
    ∧ (handleFiles cEnv cFS (str "GET")
        (str "/files/" ++ str "%2e%2e/%2e%2e/etc/passwd") [] [] false false).1.status = 403 :=
  ⟨by decide, by decide,
    c1_files_traversal_forbidden cEnv cFS (str "GET") (str "%2e%2e/%2e%2e/etc/passwd")
      (str "../../etc/passwd") [] [] false false
      (by decide) (by decide) (Or.inr (by decide))⟩

/-- C9: a request with no session cookie value, or with one unknown to the
store, gets a fresh session recorded under the newly generated id and a
Set-Cookie header carrying it; a request with a known session id has its
last-access time refreshed and no Set-Cookie header is added. -/
theorem c9_session_cookie (env : Env) (sm : SM) (n : Nat) (cookie : GoStr) :
    ((getSessionCookie cookie = [] ∨ smGet sm (getSessionCookie cookie) = none) →
      mapGet? (sessionStep env sm n cookie).2.2 (str "Set-Cookie")
          = some (str "session=" ++ env.freshId n ++ str "; Path=/")
        ∧ smGet (sessionStep env sm n cookie).1 (env.freshId n) = some env.nowT)
    ∧ (∀ t, ¬ getSessionCookie cookie = [] → smGet sm (getSessionCookie cookie) = some t →
      (sessionStep env sm n cookie).2.2 = []
        ∧ smGet (sessionStep env sm n cookie).1 (getSessionCookie cookie) = some env.nowT) := by
  constructor
  · intro h
    rcases h with h | h
    · simp [sessionStep, h, mapGet?_set_self, smGet_set_self, mapSet, mapGet?]
    · by_cases h0 : getSessionCookie cookie = []
      · simp [sessionStep, h0, mapGet?_set_self, smGet_set_self, mapSet, mapGet?]
      · simp [sessionStep, h0, h, mapGet?_set_self, smGet_set_self, mapSet, mapGet?]
  · intro t h0 ht
    simp [sessionStep, h0, ht, smGet_set_self]

/-- C9 witness: with an empty cookie a session is created and announced;
with a known cookie the store entry is refreshed with no Set-Cookie. -/
theorem c9_witness :
    (mapGet? (sessionStep cEnv [] 0 (str "")).2.2 (str "Set-Cookie")
        = some (str "session=" ++ cEnv.freshId 0 ++ str "; Path=/")
      ∧ smGet (sessionStep cEnv [] 0 (str "")).1 (cEnv.freshId 0) = some cEnv.nowT)
    ∧ ((sessionStep cEnv [(str "abc", 5)] 0 (str "session=abc")).2.2 = []
      ∧ smGet (sessionStep cEnv [(str "abc", 5)] 0 (str "session=abc")).1 (str "abc")
          = some cEnv.nowT) := by
  constructor
  · exact (c9_session_cookie cEnv [] 0 (str "")).1 (Or.inl (by decide))
  · have h := (c9_session_cookie cEnv [(str "abc", 5)] 0 (str "session=abc")).2 5
      (by decide) (by decide)
    exact ⟨h.1, by simpa using h.2⟩

/-- C4: for a valid filename (decodable, inside the root) and any body,
POST stores the body and answers 201; a following GET answers 200 with
exactly the posted bytes; DELETE then answers 200; a final GET answers
404.  Disk faults are excluded by hypothesis. -/
theorem c4_files_roundtrip (env : Env) (fs : FS) (name fname b : GoStr)
    (rh : Headers) (close : Bool)
    (hname : name ≠ [])
    (hdec : queryUnescape name = some fname)
    (hpref : goHasPref (goAbs env.cwd (goJoin2 (filesDirOf env) fname))
      (goAbs env.cwd (filesDirOf env)) = true)
    (hdots : goContains fname (str "..") = false)
    (hw : fs.failWrite (goJoin2 (filesDirOf env) fname) = false)
    (hrm : fs.failRemove (goJoin2 (filesDirOf env) fname) = false) :
    (handleFiles env fs (str "POST") (str "/files/" ++ name) b rh false close).1.status = 201
    ∧ ((handleFiles env
        (handleFiles env fs (str "POST") (str "/files/" ++ name) b rh false close).2
        (str "GET") (str "/files/" ++ name) [] rh false close).1.status = 200
      ∧ (handleFiles env
        (handleFiles env fs (str "POST") (str "/files/" ++ name) b rh false close).2
        (str "GET") (str "/files/" ++ name) [] rh false close).1.outBody = b)
    ∧ (handleFiles env
        (handleFiles env
          (handleFiles env fs (str "POST") (str "/files/" ++ name) b rh false close).2
          (str "GET") (str "/files/" ++ name) [] rh false close).2
        (str "DELETE") (str "/files/" ++ name) [] rh false close).1.status = 200
    ∧ (handleFiles env
        (handleFiles env
          (handleFiles env
            (handleFiles env fs (str "POST") (str "/files/" ++ name) b rh false close).2
            (str "GET") (str "/files/" ++ name) [] rh false close).2
          (str "DELETE") (str "/files/" ++ name) [] rh false close).2
        (str "GET") (str "/files/" ++ name) [] rh false close).1.status = 404 := by
  have hd := handleFiles_dispatch env fs (str "POST") name fname b rh false close
    hname hdec hpref hdots
  rw [if_neg (by decide), if_pos rfl] at hd
  set fp := goJoin2 (filesDirOf env) fname with hfp
  have hpost : handleFiles env fs (str "POST") (str "/files/" ++ name) b rh false close =
      (sendResponse env.gzipC 201 (str "Created") (str "text/plain")
        (str "File created") rh false close,
       { fs with files := mapSet fs.files fp b }) := by
    rw [hd]
    simp [handleFileCreate, fsWrite, hw]
  have hget1 : handleFiles env { fs with files := mapSet fs.files fp b }
      (str "GET") (str "/files/" ++ name) [] rh false close =
      (sendResponse env.gzipC 200 (str "OK")
        (if goHasPref fp.reverse (str ".txt").reverse then str "text/plain"
         else if goHasPref fp.reverse (str ".html").reverse then str "text/html"
         else if goHasPref fp.reverse (str ".json").reverse then str "application/json"
         else str "application/octet-stream") b rh false close,
       { fs with files := mapSet fs.files fp b }) := by
    rw [handleFiles_dispatch env _ (str "GET") name fname [] rh false close
      hname hdec hpref hdots, if_pos rfl]
    simp [handleFileGet, fsRead, mapGet?_set_self]
  have hdel : handleFiles env { fs with files := mapSet fs.files fp b }
      (str "DELETE") (str "/files/" ++ name) [] rh false close =
      (sendResponse env.gzipC 200 (str "OK") (str "text/plain")
        (str "File deleted") rh false close,
       { fs with files := (mapSet fs.files fp b).filter (fun kv => ¬ kv.1 = fp) }) := by
    rw [handleFiles_dispatch env _ (str "DELETE") name fname [] rh false close
      hname hdec hpref hdots, if_neg (by decide), if_neg (by decide), if_pos rfl]
    simp [handleFileDelete, fsRemove, mapGet?_set_self, hrm]
  have hget2 : ∀ fs' : FS, fsRead fs' fp = none →
      (handleFiles env fs' (str "GET") (str "/files/" ++ name) [] rh false close).1.status
        = 404 := by
    intro fs' hn
    rw [handleFiles_dispatch env fs' (str "GET") name fname [] rh false close
      hname hdec hpref hdots, if_pos rfl]
    rw [← hfp]
    simp [handleFileGet, hn, sendResponse]
  refine ⟨?_, ⟨?_, ?_⟩, ?_, ?_⟩
  · rw [hpost]; simp [sendResponse]
  · rw [hpost, hget1]; simp [sendResponse]
  · rw [hpost, hget1]; simp [sendResponse]
  · rw [hpost, hget1, hdel]; simp [sendResponse]
  · rw [hpost, hget1, hdel]
    exact hget2 _ (mapGet?_filter_none _ _ _ (fun kv h => of_decide_eq_true h))

/-- C4 witness: a concrete round trip for the.txt name with body "hi". -/
theorem c4_witness :
    (handleFiles cEnv cFS (str "POST") (str "/files/" ++ str "b.txt") (str "hi") [] false false).1.status = 201
    ∧ ((handleFiles cEnv
        (handleFiles cEnv cFS (str "POST") (str "/files/" ++ str "b.txt") (str "hi") [] false false).2
        (str "GET") (str "/files/" ++ str "b.txt") [] [] false false).1.status = 200
      ∧ (handleFiles cEnv
        (handleFiles cEnv cFS (str "POST") (str "/files/" ++ str "b.txt") (str "hi") [] false false).2
        (str "GET") (str "/files/" ++ str "b.txt") [] [] false false).1.outBody = str "hi")
    ∧ (handleFiles cEnv
        (handleFiles cEnv
          (handleFiles cEnv cFS (str "POST") (str "/files/" ++ str "b.txt") (str "hi") [] false false).2
          (str "GET") (str "/files/" ++ str "b.txt") [] [] false false).2
        (str "DELETE") (str "/files/" ++ str "b.txt") [] [] false false).1.status = 200
    ∧ (handleFiles cEnv
        (handleFiles cEnv
          (handleFiles cEnv
            (handleFiles cEnv cFS (str "POST") (str "/files/" ++ str "b.txt") (str "hi") [] false false).2
            (str "GET") (str "/files/" ++ str "b.txt") [] [] false false).2
          (str "DELETE") (str "/files/" ++ str "b.txt") [] [] false false).2
        (str "GET") (str "/files/" ++ str "b.txt") [] [] false false).1.status = 404 :=
  c4_files_roundtrip cEnv cFS (str "b.txt") (str "b.txt") (str "hi") [] false
    (by decide) (by decide) (by decide) (by decide) (by decide) (by decide)

/-- C3: when the Accept-Encoding header, split on commas with entries
trimmed, contains the exact token gzip, every non-empty outgoing body is
replaced by its gzip compression, the Content-Encoding: gzip header is
added, Content-Length is the compressed length, and decompressing the
written body recovers the body that would have been written without
negotiation. -/
theorem c3_gzip_negotiation (ae : GoStr) (gz unz : GoStr → GoStr)
    (status : Nat) (text ct body : GoStr) (hdrs : Headers) (close : Bool)
    (hae : str "gzip" ∈ (splitOnChar ',' ae).map goTrimSpace)
    (hbody : body ≠ [])
    (hrt : ∀ bs, unz (gz bs) = bs) :
    (sendResponse gz status text ct body hdrs (supportsGzipF ae) close).outBody = gz body
    ∧ (sendResponse gz status text ct body hdrs (supportsGzipF ae) close).gzipped = true
    ∧ (sendResponse gz status text ct body hdrs (supportsGzipF ae) close).contentLength
        = (gz body).length
    ∧ unz (sendResponse gz status text ct body hdrs (supportsGzipF ae) close).outBody = body
    ∧ (sendResponse gz status text ct body hdrs false close).outBody = body := by
  have hsup := supportsGzipF_of_mem hae
  have hlen : 0 < body.length := List.length_pos.mpr hbody
  simp [sendResponse, hsup, hlen, hrt]

/-- C3 witness: a concrete negotiation with the identity as the
compression pair. -/
theorem c3_witness :
    str "gzip" ∈ (splitOnChar ',' (str "deflate, gzip")).map goTrimSpace
    ∧ (sendResponse id 200 (str "OK") (str "text/plain") (str "x") []
        (supportsGzipF (str "deflate, gzip")) false).gzipped = true :=
  ⟨by decide,
    (c3_gzip_negotiation (str "deflate, gzip") id id 200 (str "OK") (str "text/plain")
      (str "x") [] false (by decide) (by decide) (fun _ => rfl)).2.1⟩

/-- C6 counterexample: header keys are not compared case-insensitively:
the same request with User-Agent spelled in lower case produces a
different response body on the user-agent route. -/
theorem c6_counterexample :
    (handleRequest cEnv [] cFS (str "GET") (str "/user-agent")
      [(str "User-Agent", str "X")] [] [] false false).1.outBody = str "X"
    ∧ (handleRequest cEnv [] cFS (str "GET") (str "/user-agent")
      [(str "user-agent", str "X")] [] [] false false).1.outBody = str ""
    ∧ ¬ ((handleRequest cEnv [] cFS (str "GET") (str "/user-agent")
        [(str "user-agent", str "X")] [] [] false false).1.outBody
      = (handleRequest cEnv [] cFS (str "GET") (str "/user-agent")
        [(str "User-Agent", str "X")] [] [] false false).1.outBody) := by
  refine ⟨by decide, by decide, by decide⟩

/-- C6 amended: header keys are compared by exact byte equality, so a
header stored under any key other than the exact spellings
Content-Length, Connection, Accept-Encoding, Cookie and User-Agent —
in particular a casing variant — has no effect on body framing,
connection closure, gzip negotiation, session handling, or the
user-agent response body. -/
theorem c6_amended_case_sensitive (hdrs : Headers) (k v : GoStr) :
    (¬ k = str "Content-Length" →
      mapGet? (mapSet hdrs k v) (str "Content-Length")
        = mapGet? hdrs (str "Content-Length"))
    ∧ (¬ k = str "Connection" → wantsClose (mapSet hdrs k v) = wantsClose hdrs)
    ∧ (¬ k = str "Accept-Encoding" →
      supportsGzipF (mapGetD (mapSet hdrs k v) (str "Accept-Encoding"))
        = supportsGzipF (mapGetD hdrs (str "Accept-Encoding")))
    ∧ (¬ k = str "Cookie" → ∀ env sm n,
      sessionStep env sm n (mapGetD (mapSet hdrs k v) (str "Cookie"))
        = sessionStep env sm n (mapGetD hdrs (str "Cookie")))
    ∧ (¬ k = str "User-Agent" → ∀ env sm fs rh gz cl,
      (handleRequest env sm fs (str "GET") (str "/user-agent")
        (mapSet hdrs k v) [] rh gz cl).1.outBody
      = (sendResponse env.gzipC 200 (str "OK") (str "text/plain")
        (mapGetD hdrs (str "User-Agent")) rh gz cl).outBody) := by
  refine ⟨?_, ?_, ?_, ?_, ?_⟩
  · intro hk
    exact mapGet?_set_ne hdrs k v _ hk
  · intro hk
    simp [wantsClose, mapGetD_set_ne hdrs k v _ hk]
  · intro hk
    rw [mapGetD_set_ne hdrs k v _ hk]
  · intro hk env sm n
    rw [mapGetD_set_ne hdrs k v _ hk]
  · intro hk env sm fs rh gz cl
    simp only [handleRequest]
    rw [if_neg (by decide), if_neg (by decide)]
    simp [mapGetD_set_ne hdrs k v _ hk]

/-- C6 amended witness: a lower-case spelling leaves the user-agent body
at the missing-header default. -/
theorem c6_amended_witness :
    ¬ (str "user-agent") = str "User-Agent"
    ∧ (handleRequest cEnv [] cFS (str "GET") (str "/user-agent")
        (mapSet [] (str "user-agent") (str "X")) [] [] false false).1.outBody
      = (sendResponse cEnv.gzipC 200 (str "OK") (str "text/plain")
        (mapGetD [] (str "User-Agent")) [] false false).outBody :=
  ⟨by decide,
    (c6_amended_case_sensitive [] (str "user-agent") (str "X")).2.2.2.2
      (by decide) cEnv [] cFS [] false false⟩

/-- C10: every response produced through the dispatcher carries the three
security headers X-Content-Type-Options: nosniff, X-Frame-Options: DENY
and X-XSS-Protection: 1; mode=block; the only response a connection can
emit without them is the 400 for a malformed request line, whose header
map is empty. -/
theorem c10_security_headers (env : Env) (s : GoStr) (sm : SM) (fs : FS) (n : Nat) :
    (∀ r ∈ (connLoop env s sm fs n).1,
      hasSecurityHeaders r ∨ (r = malformed400 env ∧ r.extraHeaders = []))
    ∧ ¬ hasSecurityHeaders (malformed400 env) := by
  constructor
  · intro r hr
    rcases connLoopAux_secure env (s.length + 1) s sm fs n r hr with h | h
    · exact Or.inl h
    · exact Or.inr ⟨h, by rw [h]; rfl⟩
  · intro h
    have := h.1
    simp [malformed400, sendResponse, mapGet?] at this

/-- C10 witness: the single response of a concrete exchange carries the
three security headers. -/
theorem c10_witness :
    hasSecurityHeaders
      ((connLoop cEnv (str "GET / HTTP/1.1\r\n\r\n") [] cFS 0).1.headD
        (malformed400 cEnv))
    ∨ ((connLoop cEnv (str "GET / HTTP/1.1\r\n\r\n") [] cFS 0).1.headD
        (malformed400 cEnv) = malformed400 cEnv
      ∧ ((connLoop cEnv (str "GET / HTTP/1.1\r\n\r\n") [] cFS 0).1.headD
        (malformed400 cEnv)).extraHeaders = []) :=
  (c10_security_headers cEnv (str "GET / HTTP/1.1\r\n\r\n") [] cFS 0).1
    ((connLoop cEnv (str "GET / HTTP/1.1\r\n\r\n") [] cFS 0).1.headD (malformed400 cEnv))
    (by decide)

/-- C2: the code contradicts the recovery policy: a request whose
Content-Length is the negative integer -1 makes the ignored
strconv.Atoi result feed make with a negative length, which panics; with
no recover in the goroutine this kills the whole process, hence every
other connection.  The model returns no response and the panic flag. -/
theorem c2_negative_content_length_panics :
    connLoop cEnv (str "GET / HTTP/1.1\r\nContent-Length: -1\r\n\r\n") [] cFS 0
      = ([], true)
    ∧ readBody (atoiOr0 (str "-1")) [] = Except.error (str "makeslice: len out of range") := by
  refine ⟨by decide, by rfl⟩

/-- C5: on one connection, a request without Connection: close is
followed by a read of the next request, so two well-formed serialized
requests yield exactly the two dispatched responses over the same
socket; a request carrying Connection: close yields its response and the
loop exits, reading nothing further regardless of what follows. -/
theorem c5_keepalive_close (env : Env) (sm : SM) (fs : FS) (n : Nat)
    (m1 p1 : GoStr) (hs1 : List (GoStr × GoStr)) (b1 : GoStr)
    (m2 p2 : GoStr) (hs2 : List (GoStr × GoStr)) (b2 : GoStr)
    (hm1 : wfTok m1) (hp1 : wfTok p1) (hhs1 : ∀ kv ∈ hs1, wfHeaderKV kv)
    (hb1 : wfBody hs1 b1)
    (hm2 : wfTok m2) (hp2 : wfTok p2) (hhs2 : ∀ kv ∈ hs2, wfHeaderKV kv)
    (hb2 : wfBody hs2 b2) :
    (wantsClose (parsedMap hs1) = false →
      connLoop env (encodeRequest m1 p1 hs1 b1 ++ encodeRequest m2 p2 hs2 b2) sm fs n
        = ([(exchange env sm fs n m1 p1 (parsedMap hs1) b1).1,
            (exchange env
              (exchange env sm fs n m1 p1 (parsedMap hs1) b1).2.1
              (exchange env sm fs n m1 p1 (parsedMap hs1) b1).2.2.1
              (exchange env sm fs n m1 p1 (parsedMap hs1) b1).2.2.2.1
              m2 p2 (parsedMap hs2) b2).1], false))
    ∧ (wantsClose (parsedMap hs1) = true →
      ∀ tail, connLoop env (encodeRequest m1 p1 hs1 b1 ++ tail) sm fs n
        = ([(exchange env sm fs n m1 p1 (parsedMap hs1) b1).1], false)) := by
  constructor
  · intro hcl
    unfold connLoop
    rw [connLoop_step env _ m1 p1 hs1 b1 _ sm fs n hm1 hp1 hhs1 hb1]
    rw [exchange_close_eq, hcl, if_neg (by simp)]
    have h1 : 1 ≤ (encodeRequest m1 p1 hs1 b1).length := by
      obtain ⟨hne, _⟩ := hm1
      rcases m1 with _ | ⟨c, m'⟩
      · exact absurd rfl hne
      · simp [encodeRequest]
    have hL : (encodeRequest m1 p1 hs1 b1 ++ encodeRequest m2 p2 hs2 b2).length
        = ((encodeRequest m1 p1 hs1 b1 ++ encodeRequest m2 p2 hs2 b2).length - 1) + 1 := by
      rw [List.length_append]
      omega
    rw [hL, connLoopAux_single env _ m2 p2 hs2 b2 _ _ _ hm2 hp2 hhs2 hb2]
  · intro hcl tail
    unfold connLoop
    rw [connLoop_step env _ m1 p1 hs1 b1 tail sm fs n hm1 hp1 hhs1 hb1]
    rw [exchange_close_eq, hcl, if_pos rfl]

/-- C5 witness: two serialized root requests produce the two dispatched
responses; a first request with Connection: close produces exactly one
response no matter what follows on the stream. -/
theorem c5_witness :
    wantsClose (parsedMap ([] : List (GoStr × GoStr))) = false
    ∧ connLoop cEnv (encodeRequest (str "GET") (str "/") [] []
        ++ encodeRequest (str "GET") (str "/") [] []) [] cFS 0
      = ([(exchange cEnv [] cFS 0 (str "GET") (str "/") (parsedMap []) []).1,
          (exchange cEnv
            (exchange cEnv [] cFS 0 (str "GET") (str "/") (parsedMap []) []).2.1
            (exchange cEnv [] cFS 0 (str "GET") (str "/") (parsedMap []) []).2.2.1
            (exchange cEnv [] cFS 0 (str "GET") (str "/") (parsedMap []) []).2.2.2.1
            (str "GET") (str "/") (parsedMap []) []).1], false)
    ∧ wantsClose (parsedMap [(str "Connection", str "close")]) = true
    ∧ connLoop cEnv (encodeRequest (str "GET") (str "/")
          [(str "Connection", str "close")] [] ++ str "GET / HTTP/1.1\r\n\r\n") [] cFS 0
      = ([(exchange cEnv [] cFS 0 (str "GET") (str "/")
          (parsedMap [(str "Connection", str "close")]) []).1], false) := by
  have hkvCC : wfHeaderKV (str "Connection", str "close") :=
    ⟨⟨'C', str "onnection", rfl, by decide⟩, by decide, by decide,
      ⟨str "clos", 'e', rfl, by decide⟩, by decide⟩
  refine ⟨by decide, ?_, by decide, ?_⟩
  · exact (c5_keepalive_close cEnv [] cFS 0 (str "GET") (str "/") [] []
      (str "GET") (str "/") [] []
      ⟨by decide, by decide⟩ ⟨by decide, by decide⟩ (by simp) rfl
      ⟨by decide, by decide⟩ ⟨by decide, by decide⟩ (by simp) rfl).1 (by decide)
  · exact (c5_keepalive_close cEnv [] cFS 0 (str "GET") (str "/")
      [(str "Connection", str "close")] [] (str "GET") (str "/") [] []
      ⟨by decide, by decide⟩ ⟨by decide, by decide⟩
      (by intro kv hm; rw [List.mem_singleton.mp hm]; exact hkvCC) (by rfl)
      ⟨by decide, by decide⟩ ⟨by decide, by decide⟩ (by simp) rfl).2 (by decide)
      (str "GET / HTTP/1.1\r\n\r\n")

/-- C8 counterexample: the two-token request line GET / is answered with
the bare 400 and the connection closes, although the claim says any line
with two or more tokens is dispatched. -/
theorem c8_counterexample :
    connLoop cEnv (str "GET /\r\n") [] cFS 0 = ([malformed400 cEnv], false)
    ∧ (malformed400 cEnv).status = 400
    ∧ (malformed400 cEnv).extraHeaders = []
    ∧ (splitOnChar ' ' (goTrimSpace (str "GET /"))).length = 2 := by
  refine ⟨by decide, by decide, by decide, by decide⟩

/-- C8 amended: a request line is malformed — answered with the bare 400
and the connection closed — exactly when it has fewer than three
space-separated tokens; a well-formed serialized request (whose line has
three tokens) is parsed into its method and path and dispatched. -/
theorem c8_amended (env : Env) (sm : SM) (fs : FS) (n : Nat) :
    (∀ line tail, '\n' ∉ line → ¬ goTrimSpace line = [] →
      (splitOnChar ' ' (goTrimSpace line)).length < 3 →
      connLoop env (line ++ '\n' :: tail) sm fs n = ([malformed400 env], false))
    ∧ (∀ m p hs body, wfTok m → wfTok p → (∀ kv ∈ hs, wfHeaderKV kv) → wfBody hs body →
      connLoop env (encodeRequest m p hs body) sm fs n
        = ([(exchange env sm fs n m p (parsedMap hs) body).1], false)) := by
  constructor
  · intro line tail hnl hne hlt
    exact connLoop_malformed env sm fs n line tail hnl hne hlt
  · intro m p hs body hm hp hhs hb
    exact connLoop_single env sm fs n m p hs body hm hp hhs hb

/-- C8 amended witness: a two-token line gets the bare 400; a three-token
serialized request is dispatched. -/
theorem c8_amended_witness :
    connLoop cEnv (str "GET /\r" ++ '\n' :: []) [] cFS 0 = ([malformed400 cEnv], false)
    ∧ connLoop cEnv (encodeRequest (str "GET") (str "/") [] []) [] cFS 0
      = ([(exchange cEnv [] cFS 0 (str "GET") (str "/") (parsedMap []) []).1], false) :=
  ⟨(c8_amended cEnv [] cFS 0).1 (str "GET /\r") [] (by decide) (by decide) (by decide),
    (c8_amended cEnv [] cFS 0).2 (str "GET") (str "/") [] []
      ⟨by decide, by decide⟩ ⟨by decide, by decide⟩ (by simp) rfl⟩

/-- C7 counterexample: a request declaring Content-Length 5 on a stream
that ends after 2 body bytes still receives a response (status 200 with
the body zero-padded), contradicting the claim that the connection fails
without any response being sent. -/
theorem c7_counterexample :
    ((connLoop cEnv (str "POST /api/echo HTTP/1.1\r\nContent-Length: 5\r\n\r\nab")
        [] cFS 0).1.map (fun r => r.status)) = [200]
    ∧ ((connLoop cEnv (str "POST /api/echo HTTP/1.1\r\nContent-Length: 5\r\n\r\nab")
        [] cFS 0).1.map (fun r => r.outBody))
      = [str "ab" ++ List.replicate 3 (Char.ofNat 0)]
    ∧ (connLoop cEnv (str "POST /api/echo HTTP/1.1\r\nContent-Length: 5\r\n\r\nab")
        [] cFS 0).2 = false := by
  refine ⟨by decide, by decide, by decide⟩

/-- C7 amended: with Content-Length n, exactly n bytes are consumed as
the body when the stream holds them; when the stream is exhausted first,
the read error is ignored, the body is zero-padded to n, and the
exchange is still answered with a response before the loop ends. -/
theorem c7_amended :
    (∀ (nb : Nat) (body tail : GoStr), body.length = nb →
      readBody (nb : Int) (body ++ tail) = .ok (body, tail))
    ∧ (∀ (env : Env) (sm : SM) (fs : FS) (n : Nat) (m p scl partBody : GoStr)
        (hs : List (GoStr × GoStr)) (cl : Nat),
      wfTok m → wfTok p → (∀ kv ∈ hs, wfHeaderKV kv) →
      mapGet? (parsedMap hs) (str "Content-Length") = some scl →
      atoiOr0 scl = (cl : Int) →
      partBody.length ≤ cl →
      connLoop env (encodeRequest m p hs partBody) sm fs n
        = ([(exchange env sm fs n m p (parsedMap hs)
            (partBody ++ List.replicate (cl - partBody.length) (Char.ofNat 0))).1],
           false)) := by
  constructor
  · intro nb body tail hlen
    subst hlen
    unfold readBody
    rw [if_neg (by simp)]
    rw [show ((body.length : Int)).toNat = body.length from Int.toNat_natCast _]
    simp [List.take_left, List.drop_left, List.length_append]
  · intro env sm fs n m p scl partBody hs cl hm hp hhs hCL hcl hle
    unfold connLoop
    unfold encodeRequest
    rw [connLoopAux_front env _ m p hs partBody sm fs n hm hp hhs]
    unfold readBodyStep
    rw [hCL]
    simp only
    unfold readBody
    rw [hcl]
    rw [if_neg (by simp)]
    rw [show ((cl : Int)).toNat = cl from Int.toNat_natCast _]
    simp only [List.take_of_length_le hle, List.drop_eq_nil_of_le hle]
    by_cases hcls : (exchange env sm fs n m p (parsedMap hs)
        (partBody ++ List.replicate (cl - partBody.length) (Char.ofNat 0))).2.2.2.2 = true
    · rw [if_pos hcls]
    · rw [if_neg hcls, connLoopAux_nil]

/-- C7 amended witness: an exact read of two bytes, and the concrete
truncated request answered with a padded body. -/
theorem c7_amended_witness :
    readBody ((2 : Nat) : Int) (str "ab" ++ str "") = .ok (str "ab", str "")
    ∧ connLoop cEnv (encodeRequest (str "POST") (str "/api/echo")
        [(str "Content-Length", str "5")] (str "ab")) [] cFS 0
      = ([(exchange cEnv [] cFS 0 (str "POST") (str "/api/echo")
          (parsedMap [(str "Content-Length", str "5")])
          (str "ab" ++ List.replicate (5 - (str "ab").length) (Char.ofNat 0))).1],
         false) := by
  have hkvCL : wfHeaderKV (str "Content-Length", str "5") :=
    ⟨⟨'C', str "ontent-Length", rfl, by decide⟩, by decide, by decide,
      ⟨str "", '5', rfl, by decide⟩, by decide⟩
  refine ⟨c7_amended.1 2 (str "ab") (str "") rfl, ?_⟩
  exact c7_amended.2 cEnv [] cFS 0 (str "POST") (str "/api/echo") (str "5") (str "ab")
    [(str "Content-Length", str "5")] 5
    ⟨by decide, by decide⟩ ⟨by decide, by decide⟩
    (by intro kv hm; rw [List.mem_singleton.mp hm]; exact hkvCL)
    (by decide) (by decide) (by decide)
